import Mathlib

/-!
# Dependency graph view of the JDeps report page (`web/script.js`)

A shallow embedding of the graph construction in `renderGraph`
(script.js, lines 359-382) and of the later statements of `renderGraph` that
can raise on an identifier (lines 386 and 419), of the drag handlers
`dragstarted`, `dragged`, `dragended` (lines 444-459) and of the zoom controls
`zoomIn`, `zoomOut`, `resetZoom` (lines 549-565), with the properties of the
graph view proved about them.
-/

namespace CodeRush

/-! ## Data model -/

/-- The JavaScript values a field of a dependency record is read as: a string,
or `undefined` when the field is absent, or `null`.  Keys of a `Map` are
compared with SameValueZero, which on these values is structural equality. -/
inductive Val where
  | undefined
  | null
  | str (s : String)
  deriving DecidableEq, Repr

/-- A dependency record of `analysisData.dependencies`, as `renderGraph` reads
it: `dep.source`, `dep.target`, `dep.type` (the `details` text is never read by
the graph code).  A field the record does not have reads as `Val.undefined`. -/
structure Dep where
  source : Val
  target : Val
  type : Val
  deriving DecidableEq, Repr

/-- A node object `{ id, type, group }` pushed on `graphNodes`. -/
structure Node where
  id : Val
  type : Val
  group : Nat
  deriving DecidableEq, Repr

/-- A link object `{ source, target, type }` pushed on `graphLinks`. -/
structure Link where
  source : Val
  target : Val
  type : Val
  deriving DecidableEq, Repr

/-! ## The `Map` used as `nodeMap`

An insertion-ordered association list: `has`, `get` and `set` of a JavaScript
`Map`.  -/

/-- `nodeMap.has(k)`. -/
def mapHas (m : List (Val × Node)) (k : Val) : Bool :=
  m.any (fun e => e.1 == k)

/-- `nodeMap.get(k)`; `none` stands for the `undefined` of an absent key. -/
def mapGet (m : List (Val × Node)) (k : Val) : Option Node :=
  (m.find? (fun e => e.1 == k)).map (fun e => e.2)

/-- `nodeMap.set(k, v)`: an existing key keeps its place and takes the new
value, a new key is appended. -/
def mapSet (m : List (Val × Node)) (k : Val) (v : Node) : List (Val × Node) :=
  if mapHas m k then m.map (fun e => if e.1 == k then (k, v) else e)
  else m ++ [(k, v)]

/-! ## Graph construction in `renderGraph` -/

/-- The three locals of `renderGraph`: `graphNodes`, `graphLinks`, `nodeMap`. -/
structure Build where
  graphNodes : List Node
  graphLinks : List Link
  nodeMap : List (Val × Node)
  deriving DecidableEq, Repr

/-- The statement pair `nodeMap.set(k, n); graphNodes.push(nodeMap.get(k));`.
The `none` arm is the `undefined` a `get` of an absent key would give; it is
never taken, see `mapGet_mapSet`. -/
def addNode (b : Build) (k : Val) (n : Node) : Build :=
  let m := mapSet b.nodeMap k n
  match mapGet m k with
  | some v => { b with nodeMap := m, graphNodes := b.graphNodes ++ [v] }
  | none => { b with nodeMap := m }

/-- Body of the first `forEach` (lines 364-373): the source of the record is
looked up and added first, then its target. -/
def addNodesStep (b : Build) (dep : Dep) : Build :=
  let b1 :=
    if !mapHas b.nodeMap dep.source then
      addNode b dep.source { id := dep.source, type := Val.str "source", group := 1 }
    else b
  if !mapHas b1.nodeMap dep.target then
    addNode b1 dep.target
      { id := dep.target, type := dep.type,
        group := if dep.type = Val.str "jdk" then 2 else 3 }
  else b1

/-- Body of the second `forEach` (lines 376-382). -/
def addLinksStep (b : Build) (dep : Dep) : Build :=
  { b with graphLinks :=
      b.graphLinks ++ [{ source := dep.source, target := dep.target, type := dep.type }] }

/-- The graph built by `renderGraph` from `analysisData.dependencies`
(lines 359-382): both `forEach` loops, run one after the other from empty
`graphNodes`, `graphLinks` and `nodeMap`.  The two loops raise on no value;
whether the rest of the function then completes is `renderGraphOutcome`. -/
def renderGraph (deps : List Dep) : Build :=
  let b0 : Build := { graphNodes := [], graphLinks := [], nodeMap := [] }
  let b1 := deps.foldl addNodesStep b0
  deps.foldl addLinksStep b1

/-! ## The statements of `renderGraph` after the construction that read the ids

After line 382 `renderGraph` hands `graphNodes` and `graphLinks` to d3 and
draws them.  Two of those statements read the identifiers and raise on one
that is not a string: the link force of line 386 and the label text of line
419.  The other statements (colours, radius, tooltip) accept every value. -/

/-- What `renderGraph` can raise after the construction. -/
inductive Thrown where
  -- line 386: `Error("node not found: ...")` of the link force
  | nodeNotFound
  -- line 386: `TypeError`, the link force reads `.index` of a `null` end
  | typeErrorLinkEnd
  -- line 419: `TypeError`, `d.id.split` on an id that is `undefined` or `null`
  | typeErrorLabel
  deriving DecidableEq, Repr

/-- Whether a value is a string. -/
def Val.isString : Val → Bool
  | Val.str _ => true
  | _ => false

/-- One end of a link in the initialisation of `d3.forceLink(...).id(d => d.id)`
(line 386): an end whose `typeof` is not `"object"` is looked up among the node
ids and raises when no node has it; `null`, whose `typeof` is `"object"`, is
left as it is. -/
def linkEndThrows (nodes : List Node) (v : Val) : Option Thrown :=
  match v with
  | Val.null => none
  | _ => if nodes.any (fun n => n.id == v) then none else some Thrown.nodeNotFound

/-- One link in the initialisation of the link force (line 386): the source is
resolved, then the target, then `.index` of both ends is read. -/
def linkInitThrows (nodes : List Node) (l : Link) : Option Thrown :=
  match linkEndThrows nodes l.source with
  | some e => some e
  | none =>
    match linkEndThrows nodes l.target with
    | some e => some e
    | none =>
      if l.source = Val.null ∨ l.target = Val.null then some Thrown.typeErrorLinkEnd
      else none

/-- The label text `d.id.split('.').pop()` of one node (line 419): `split` is
a method of strings, on `undefined` and on `null` the call raises. -/
def labelThrows (n : Node) : Option Thrown :=
  if n.id.isString then none else some Thrown.typeErrorLabel

/-- The whole of `renderGraph` as to whether it completes: the construction of
lines 359-382, then the link force over `graphLinks` in order (line 386), then
the labels over `graphNodes` in order (line 419).  The first statement that
raises ends the call; otherwise the graph built is the one drawn. -/
def renderGraphOutcome (deps : List Dep) : Except Thrown Build :=
  let b := renderGraph deps
  match b.graphLinks.findSome? (linkInitThrows b.graphNodes) with
  | some e => Except.error e
  | none =>
    match b.graphNodes.findSome? labelThrows with
    | some e => Except.error e
    | none => Except.ok b

/-- The example input of the specification. -/
def exampleDeps : List Dep :=
  [ { source := Val.str "A", target := Val.str "B", type := Val.str "jdk" },
    { source := Val.str "A", target := Val.str "C", type := Val.str "external" } ]

/-! ## Drag handlers (lines 444-459) -/

/-- What the handlers touch of the d3 force simulation: the value passed to
`alphaTarget` and whether `restart()` has put the timer back to running.  The
literal `0.3` is only stored, never computed with, and is kept as the
rational `3/10`. -/
structure Simulation where
  alphaTarget : ℚ
  running : Bool
  deriving DecidableEq

/-- A node object once the simulation owns it: the fields of `Node` together
with the position `x`, `y` and the pinned position `fx`, `fy` (`none` for
`null`).  The handlers only copy coordinates, so the number type `α` is left
open. -/
structure SimNode (α : Type) where
  id : Val
  type : Val
  group : Nat
  x : α
  y : α
  fx : Option α
  fy : Option α
  deriving DecidableEq

/-- The fields of a d3 drag event that the handlers read: `event.active`
(a count, falsy when `0`) and the pointer position `event.x`, `event.y`. -/
structure DragEvent (α : Type) where
  active : Nat
  x : α
  y : α
  deriving DecidableEq

/-- `dragstarted(event, d)`, lines 444-448. -/
def dragstarted {α : Type} (event : DragEvent α) (sim : Simulation) (d : SimNode α) :
    Simulation × SimNode α :=
  let sim1 := if event.active = 0 then { alphaTarget := 3 / 10, running := true } else sim
  (sim1, { d with fx := some d.x, fy := some d.y })

/-- `dragged(event, d)`, lines 450-453. -/
def dragged {α : Type} (event : DragEvent α) (sim : Simulation) (d : SimNode α) :
    Simulation × SimNode α :=
  (sim, { d with fx := some event.x, fy := some event.y })

/-- `dragended(event, d)`, lines 455-459. -/
def dragended {α : Type} (event : DragEvent α) (sim : Simulation) (d : SimNode α) :
    Simulation × SimNode α :=
  let sim1 := if event.active = 0 then { sim with alphaTarget := 0 } else sim
  (sim1, { d with fx := none, fy := none })

/-- One whole gesture on a node: `dragstarted`, then `dragged`, then
`dragended`, with no simulation tick in between. -/
def dragGesture {α : Type} (e1 e2 e3 : DragEvent α) (sim : Simulation) (d : SimNode α) :
    Simulation × SimNode α :=
  let s1 := dragstarted e1 sim d
  let s2 := dragged e2 s1.1 s1.2
  dragended e3 s2.1 s2.2

/-! ## Zoom controls (lines 549-565) -/

/-- The `<svg>` element behind the global `svg`: the two attributes set when
it is created and its `transform` attribute, `none` while never set.  A
transition drives the attribute to the value given to `.attr`; `transform`
holds that end value. -/
structure Svg where
  width : Nat
  height : Nat
  transform : Option String
  deriving DecidableEq

/-- The globals the zoom controls can see: `svg` (`none` while undefined,
that is before the first `renderGraph`) and the node objects of the
simulation. -/
structure Page (α : Type) where
  svg : Option Svg
  nodes : List (SimNode α)

/-- `zoomIn()`, lines 549-553. -/
def zoomIn {α : Type} (p : Page α) : Page α :=
  match p.svg with
  | some s => { p with svg := some { s with transform := some "scale(1.2)" } }
  | none => p

/-- `zoomOut()`, lines 555-559. -/
def zoomOut {α : Type} (p : Page α) : Page α :=
  match p.svg with
  | some s => { p with svg := some { s with transform := some "scale(0.8)" } }
  | none => p

/-- `resetZoom()`, lines 561-565. -/
def resetZoom {α : Type} (p : Page α) : Page α :=
  match p.svg with
  | some s => { p with svg := some { s with transform := some "scale(1)" } }
  | none => p

/-- The scale factor that a `transform` attribute written by the controls
stands for; an element without the attribute is drawn at scale 1. -/
def scaleFactor (t : Option String) : Option ℚ :=
  match t with
  | none => some 1
  | some s =>
    if s = "scale(1.2)" then some (6 / 5)
    else if s = "scale(0.8)" then some (4 / 5)
    else if s = "scale(1)" then some 1
    else none

/-- The visual scale factor of the page, when there is an `<svg>`. -/
def Page.scale {α : Type} (p : Page α) : Option ℚ :=
  p.svg.bind (fun s => scaleFactor s.transform)

/-- A call of one of the three zoom controls. -/
inductive ZoomCall where
  | zoomIn
  | zoomOut
  | resetZoom
  deriving DecidableEq, Repr

/-- Runs one control. -/
def ZoomCall.run {α : Type} (p : Page α) : ZoomCall → Page α
  | ZoomCall.zoomIn => CodeRush.zoomIn p
  | ZoomCall.zoomOut => CodeRush.zoomOut p
  | ZoomCall.resetZoom => CodeRush.resetZoom p

/-- Runs a sequence of controls, first call first. -/
def runZoomCalls {α : Type} (p : Page α) (calls : List ZoomCall) : Page α :=
  calls.foldl ZoomCall.run p

/-! ## Specification-side descriptions of the node scan -/

/-- The node object the first `forEach` would create for the source of a
record. -/
def srcNode (dep : Dep) : Node :=
  { id := dep.source, type := Val.str "source", group := 1 }

/-- The node object the first `forEach` would create for the target of a
record. -/
def tgtNode (dep : Dep) : Node :=
  { id := dep.target, type := dep.type, group := if dep.type = Val.str "jdk" then 2 else 3 }

/-- The link object the second `forEach` creates for a record. -/
def linkOf (dep : Dep) : Link :=
  { source := dep.source, target := dep.target, type := dep.type }

/-- The node objects in the order the scan meets them: for each record its
source node, then its target node. -/
def candidates : List Dep → List Node
  | [] => []
  | d :: ds => srcNode d :: tgtNode d :: candidates ds

/-- Keeps of a list of node objects the first one of every identifier not in
`seen`. -/
def firstById (seen : List Val) : List Node → List Node
  | [] => []
  | n :: ns =>
    if n.id ∈ seen then firstById seen ns else n :: firstById (seen ++ [n.id]) ns

/-- The conditional insertion done twice per record by the first `forEach`. -/
def visit (b : Build) (n : Node) : Build :=
  if !mapHas b.nodeMap n.id then addNode b n.id n else b

/-- A record is malformed when its source or its target is missing. -/
def Dep.malformed (dep : Dep) : Bool :=
  dep.source == Val.undefined || dep.target == Val.undefined

/-- The loop invariant tying `nodeMap` to `graphNodes`: the map holds exactly
the pushed node objects, each under its own identifier, in push order. -/
def Build.Inv (b : Build) : Prop :=
  b.nodeMap = b.graphNodes.map (fun n => (n.id, n))

/-! ## First occurrences, in the words of the specification -/

/-- One mention of an identifier met when the records are scanned in order:
as the source of a record, or as the target of a record of type `t`. -/
inductive Occurrence where
  | asSource (id : Val)
  | asTarget (id : Val) (t : Val)
  deriving DecidableEq, Repr

/-- The identifier mentioned. -/
def Occurrence.id : Occurrence → Val
  | Occurrence.asSource k => k
  | Occurrence.asTarget k _ => k

/-- The node an occurrence stands for: a source gives type `source` and
group 1; a target of a record of type `t` gives type `t`, and group 2 when `t`
is `jdk`, group 3 for every other `t`. -/
def Occurrence.node : Occurrence → Node
  | Occurrence.asSource k => { id := k, type := Val.str "source", group := 1 }
  | Occurrence.asTarget k t =>
    { id := k, type := t, group := if t = Val.str "jdk" then 2 else 3 }

/-- All mentions in scan order: the records in list order, the source of each
record before its target. -/
def occurrences : List Dep → List Occurrence
  | [] => []
  | d :: ds =>
    Occurrence.asSource d.source :: Occurrence.asTarget d.target d.type :: occurrences ds

/-- The first occurrence of an identifier, `none` when it is never mentioned. -/
def firstOccurrence (deps : List Dep) (k : Val) : Option Occurrence :=
  (occurrences deps).find? (fun o => o.id == k)

/-- The position in the scan of the first occurrence of an identifier. -/
def firstPosition (deps : List Dep) (k : Val) : Nat :=
  ((occurrences deps).map Occurrence.id).indexOf k

/-! ## Inputs used as concrete cases -/

/-- Two records to the same target, the first external, the second platform. -/
def mixedTargetDeps : List Dep :=
  [ { source := Val.str "A", target := Val.str "B", type := Val.str "external" },
    { source := Val.str "A", target := Val.str "B", type := Val.str "jdk" } ]

/-- A well-formed record followed by a record that has no `source`. -/
def missingSourceDeps : List Dep :=
  [ { source := Val.str "A", target := Val.str "B", type := Val.str "jdk" },
    { source := Val.undefined, target := Val.str "C", type := Val.str "external" } ]

/-- A record whose target is `null`. -/
def nullTargetDeps : List Dep :=
  [ { source := Val.str "A", target := Val.null, type := Val.str "jdk" } ]

/-- A single self-referential record. -/
def selfLoopDeps : List Dep :=
  [ { source := Val.str "A", target := Val.str "A", type := Val.str "jdk" } ]

/-- A node resting at the origin, not pinned. -/
def restingNode : SimNode Int :=
  { id := Val.str "A", type := Val.str "source", group := 1, x := 0, y := 0,
    fx := none, fy := none }

/-- A drag event with the pointer at `(5, 7)`. -/
def pointerEvent : DragEvent Int := { active := 0, x := 5, y := 7 }

/-- A simulation at rest. -/
def idleSimulation : Simulation := { alphaTarget := 0, running := false }

/-- A page after `renderGraph`: an `<svg>` of 800 by 600 with no transform yet
and one node. -/
def renderedPage : Page Int :=
  { svg := some { width := 800, height := 600, transform := none }, nodes := [restingNode] }

/-! ## Lemmas on `nodeMap` -/

theorem find_after_update (m : List (Val × Node)) (k : Val) (v : Node)
    (h : mapHas m k = true) :
    (m.map (fun e => if e.1 == k then (k, v) else e)).find? (fun e => e.1 == k)
      = some (k, v) := by
  induction m with
  | nil => simp [mapHas] at h
  | cons e m ih =>
    by_cases he : e.1 = k
    · simp [he]
    · have hm : mapHas m k = true := by
        simpa [mapHas, he] using h
      have hb : (e.1 == k) = false := by simpa using he
      simp only [List.map_cons, hb, Bool.false_eq_true, if_false, List.find?_cons]
      exact ih hm

theorem find_absent (m : List (Val × Node)) (k : Val) (h : mapHas m k = false) :
    m.find? (fun e => e.1 == k) = none := by
  induction m with
  | nil => rfl
  | cons e m ih =>
    simp only [mapHas, List.any_cons, Bool.or_eq_false_iff] at h
    have hm : mapHas m k = false := h.2
    simp [List.find?, h.1, ih hm]

/-- A `get` right after a `set` of the same key gives the value set. -/
theorem mapGet_mapSet (m : List (Val × Node)) (k : Val) (v : Node) :
    mapGet (mapSet m k v) k = some v := by
  unfold mapGet mapSet
  by_cases h : mapHas m k = true
  · simp only [h, if_true]
    rw [find_after_update m k v h]
    rfl
  · have h2 : mapHas m k = false := by simpa using h
    simp [h2, List.find?_append, find_absent m k h2]

theorem addNode_eq (b : Build) (k : Val) (n : Node) :
    addNode b k n
      = { b with nodeMap := mapSet b.nodeMap k n, graphNodes := b.graphNodes ++ [n] } := by
  simp [addNode, mapGet_mapSet]

/-! ## The first loop as a scan of the candidates -/

theorem mapHas_of_inv (b : Build) (h : b.Inv) (k : Val) :
    mapHas b.nodeMap k = decide (k ∈ b.graphNodes.map Node.id) := by
  unfold Build.Inv at h
  rw [h]
  induction b.graphNodes with
  | nil => simp [mapHas]
  | cons n ns ih =>
    simp only [mapHas, List.map_cons, List.any_cons, List.mem_cons] at ih ⊢
    rw [ih]
    by_cases hk : n.id = k
    · simp [hk]
    · have hk2 : ¬ k = n.id := fun e => hk e.symm
      simp [hk, hk2]

theorem visit_spec (b : Build) (h : b.Inv) (n : Node) :
    (visit b n).Inv ∧ (visit b n).graphLinks = b.graphLinks ∧
    (visit b n).graphNodes =
      if n.id ∈ b.graphNodes.map Node.id then b.graphNodes else b.graphNodes ++ [n] := by
  by_cases hk : n.id ∈ b.graphNodes.map Node.id
  · have hh : mapHas b.nodeMap n.id = true := by
      rw [mapHas_of_inv b h]; simpa using hk
    have hv : visit b n = b := by simp [visit, hh]
    rw [hv, if_pos hk]
    exact ⟨h, rfl, rfl⟩
  · have hh : mapHas b.nodeMap n.id = false := by
      rw [mapHas_of_inv b h]; simpa using hk
    have hv : visit b n
        = { b with nodeMap := b.nodeMap ++ [(n.id, n)], graphNodes := b.graphNodes ++ [n] } := by
      simp [visit, hh, addNode_eq, mapSet]
    rw [hv, if_neg hk]
    refine ⟨?_, rfl, rfl⟩
    unfold Build.Inv at h ⊢
    simp [h]

theorem addNodesStep_eq (b : Build) (d : Dep) :
    addNodesStep b d = visit (visit b (srcNode d)) (tgtNode d) := rfl

theorem foldl_visit (l : List Node) (b : Build) (h : b.Inv) :
    (l.foldl visit b).Inv ∧ (l.foldl visit b).graphLinks = b.graphLinks ∧
    (l.foldl visit b).graphNodes
      = b.graphNodes ++ firstById (b.graphNodes.map Node.id) l := by
  induction l generalizing b with
  | nil => simp [firstById, h]
  | cons n ns ih =>
    obtain ⟨hi, hl, hn⟩ := visit_spec b h n
    obtain ⟨ji, jl, jn⟩ := ih (visit b n) hi
    refine ⟨ji, by rw [List.foldl_cons, jl, hl], ?_⟩
    rw [List.foldl_cons, jn, hn]
    by_cases hk : n.id ∈ b.graphNodes.map Node.id
    · simp [hk, firstById]
    · simp [hk, firstById]

theorem foldl_addNodesStep (deps : List Dep) (b : Build) :
    deps.foldl addNodesStep b = (candidates deps).foldl visit b := by
  induction deps generalizing b with
  | nil => rfl
  | cons d ds ih => simp [candidates, addNodesStep_eq, ih]

theorem foldl_addLinksStep (deps : List Dep) (b : Build) :
    (deps.foldl addLinksStep b).graphNodes = b.graphNodes ∧
    (deps.foldl addLinksStep b).graphLinks = b.graphLinks ++ deps.map linkOf := by
  induction deps generalizing b with
  | nil => simp
  | cons d ds ih =>
    obtain ⟨h1, h2⟩ := ih (addLinksStep b d)
    refine ⟨by rw [List.foldl_cons, h1]; rfl, ?_⟩
    rw [List.foldl_cons, h2]
    simp [addLinksStep, linkOf]

/-- The node list built by `renderGraph` is the first-occurrence scan of the
candidates. -/
theorem renderGraph_graphNodes (deps : List Dep) :
    (renderGraph deps).graphNodes = firstById [] (candidates deps) := by
  unfold renderGraph
  simp only []
  rw [(foldl_addLinksStep deps _).1, foldl_addNodesStep]
  have h0 : Build.Inv { graphNodes := [], graphLinks := [], nodeMap := [] } := rfl
  rw [(foldl_visit (candidates deps) _ h0).2.2]
  rfl

/-- The link list built by `renderGraph` has one link per record, in order. -/
theorem renderGraph_graphLinks (deps : List Dep) :
    (renderGraph deps).graphLinks = deps.map linkOf := by
  unfold renderGraph
  simp only []
  rw [(foldl_addLinksStep deps _).2, foldl_addNodesStep]
  have h0 : Build.Inv { graphNodes := [], graphLinks := [], nodeMap := [] } := rfl
  rw [(foldl_visit (candidates deps) _ h0).2.1]
  rfl

/-! ## Lemmas on the first-occurrence scan -/

theorem mem_ids_firstById (seen : List Val) (l : List Node) (k : Val) :
    k ∈ (firstById seen l).map Node.id ↔ k ∉ seen ∧ k ∈ l.map Node.id := by
  induction l generalizing seen with
  | nil => simp [firstById]
  | cons n ns ih =>
    by_cases hs : n.id ∈ seen
    · simp only [firstById, hs, if_true, ih, List.map_cons, List.mem_cons]
      constructor
      · rintro ⟨h1, h2⟩
        exact ⟨h1, Or.inr h2⟩
      · rintro ⟨h1, h2 | h2⟩
        · exact absurd (h2 ▸ hs) h1
        · exact ⟨h1, h2⟩
    · rw [firstById, if_neg hs, List.map_cons, List.mem_cons, ih, List.map_cons, List.mem_cons]
      by_cases hk : k = n.id
      · subst hk
        simp [hs]
      · simp [hk]

theorem nodup_ids_firstById (seen : List Val) (l : List Node) :
    ((firstById seen l).map Node.id).Nodup := by
  induction l generalizing seen with
  | nil => simp [firstById]
  | cons n ns ih =>
    by_cases hs : n.id ∈ seen
    · simpa [firstById, hs] using ih seen
    · simp only [firstById, hs, if_false, List.map_cons, List.nodup_cons]
      refine ⟨?_, ih _⟩
      rw [mem_ids_firstById]
      simp

theorem find_firstById (seen : List Val) (l : List Node) (k : Val) (hk : k ∉ seen) :
    (firstById seen l).find? (fun m => m.id == k) = l.find? (fun m => m.id == k) := by
  induction l generalizing seen with
  | nil => simp [firstById]
  | cons n ns ih =>
    by_cases hs : n.id ∈ seen
    · have hne : (n.id == k) = false := by
        have : n.id ≠ k := fun e => hk (e ▸ hs)
        simpa using this
      simp only [firstById, hs, if_true, List.find?_cons, hne]
      exact ih seen hk
    · by_cases hn : n.id = k
      · subst hn
        simp [firstById, hs]
      · have hne : (n.id == k) = false := by simpa using hn
        simp only [firstById, hs, if_false, List.find?_cons, hne]
        apply ih
        simp only [List.mem_append, List.mem_singleton, not_or]
        exact ⟨hk, fun e => hn e.symm⟩

theorem find_of_nodup_ids (l : List Node) (n : Node) (hnd : (l.map Node.id).Nodup)
    (hn : n ∈ l) : l.find? (fun m => m.id == n.id) = some n := by
  induction l with
  | nil => simp at hn
  | cons a as ih =>
    simp only [List.map_cons, List.nodup_cons] at hnd
    rcases List.mem_cons.1 hn with h | h
    · subst h
      simp
    · have hne : (a.id == n.id) = false := by
        have : a.id ≠ n.id := fun e => hnd.1 (e ▸ List.mem_map_of_mem Node.id h)
        simpa using this
      simp only [List.find?_cons, hne]
      exact ih hnd.2 h

/-- A node object is kept by the scan exactly when it is the first candidate
of its own identifier. -/
theorem mem_firstById_iff (l : List Node) (n : Node) :
    n ∈ firstById [] l ↔ l.find? (fun m => m.id == n.id) = some n := by
  constructor
  · intro h
    rw [← find_firstById [] l n.id (by simp)]
    exact find_of_nodup_ids _ n (nodup_ids_firstById [] l) h
  · intro h
    rw [← find_firstById [] l n.id (by simp)] at h
    exact List.mem_of_find?_eq_some h

theorem mem_candidates (deps : List Dep) (n : Node) :
    n ∈ candidates deps ↔ ∃ d ∈ deps, n = srcNode d ∨ n = tgtNode d := by
  induction deps with
  | nil => simp [candidates]
  | cons d ds ih =>
    simp only [candidates, List.mem_cons, ih]
    constructor
    · rintro (h | h | ⟨e, he, h⟩)
      · exact ⟨d, Or.inl rfl, Or.inl h⟩
      · exact ⟨d, Or.inl rfl, Or.inr h⟩
      · exact ⟨e, Or.inr he, h⟩
    · rintro ⟨e, he | he, h⟩
      · subst he
        rcases h with h | h
        · exact Or.inl h
        · exact Or.inr (Or.inl h)
      · exact Or.inr (Or.inr ⟨e, he, h⟩)

theorem mem_ids_candidates (deps : List Dep) (k : Val) :
    k ∈ (candidates deps).map Node.id ↔
      k ∈ deps.map Dep.source ∨ k ∈ deps.map Dep.target := by
  induction deps with
  | nil => simp [candidates]
  | cons d ds ih =>
    simp only [candidates, List.map_cons, List.mem_cons, ih, srcNode, tgtNode]
    tauto

/-- Membership in the node list of `renderGraph`, by first occurrence. -/
theorem mem_graphNodes_iff (deps : List Dep) (n : Node) :
    n ∈ (renderGraph deps).graphNodes ↔
      (candidates deps).find? (fun m => m.id == n.id) = some n := by
  rw [renderGraph_graphNodes, mem_firstById_iff]

/-- The identifiers of the node list of `renderGraph`. -/
theorem mem_ids_graphNodes (deps : List Dep) (k : Val) :
    k ∈ (renderGraph deps).graphNodes.map Node.id ↔
      k ∈ deps.map Dep.source ∨ k ∈ deps.map Dep.target := by
  rw [renderGraph_graphNodes, mem_ids_firstById, mem_ids_candidates]
  simp

theorem find_candidates_of_no_source (deps : List Dep) (k : Val)
    (hsrc : ∀ e ∈ deps, e.source ≠ k) :
    (candidates deps).find? (fun m => m.id == k)
      = (deps.find? (fun e => e.target == k)).map tgtNode := by
  induction deps with
  | nil => rfl
  | cons d ds ih =>
    have h1 : (d.source == k) = false := by
      simpa using hsrc d (List.mem_cons_self d ds)
    have ih2 := ih (fun e he => hsrc e (List.mem_cons_of_mem d he))
    by_cases ht : d.target = k
    · simp [candidates, srcNode, tgtNode, h1, ht]
    · have h2 : (d.target == k) = false := by simpa using ht
      simp only [candidates, List.find?_cons, srcNode, tgtNode, h1, h2]
      exact ih2

theorem find_candidates_of_no_target (deps : List Dep) (k : Val)
    (htgt : ∀ e ∈ deps, e.target ≠ k) :
    (candidates deps).find? (fun m => m.id == k)
      = (deps.find? (fun e => e.source == k)).map srcNode := by
  induction deps with
  | nil => rfl
  | cons d ds ih =>
    have h1 : (d.target == k) = false := by
      simpa using htgt d (List.mem_cons_self d ds)
    have ih2 := ih (fun e he => htgt e (List.mem_cons_of_mem d he))
    by_cases hs : d.source = k
    · simp [candidates, srcNode, hs]
    · have h2 : (d.source == k) = false := by simpa using hs
      simp only [candidates, List.find?_cons, srcNode, tgtNode, h1, h2]
      exact ih2

/-! ## Properties of the graph construction -/

/-- C1: for every dependency list, the set of identifiers of the nodes built by
`renderGraph` equals the set of values that are the source or the target of
some record. -/
theorem node_ids_eq_sources_and_targets (deps : List Dep) :
    ((renderGraph deps).graphNodes.map Node.id).toFinset
      = (deps.map Dep.source).toFinset ∪ (deps.map Dep.target).toFinset := by
  ext k
  simp only [List.mem_toFinset, Finset.mem_union]
  exact mem_ids_graphNodes deps k

/-- C2: for every dependency list, `graphLinks` has as many entries as there
are records, its i-th entry carries the source, target and type of the i-th
record, and a record given twice yields two links. -/
theorem links_one_per_record (deps : List Dep) :
    (renderGraph deps).graphLinks.length = deps.length ∧
    (∀ i : Nat, (renderGraph deps).graphLinks[i]? =
      (deps[i]?).map (fun d => { source := d.source, target := d.target, type := d.type })) ∧
    (∀ d : Dep, (renderGraph [d, d]).graphLinks
      = [{ source := d.source, target := d.target, type := d.type },
         { source := d.source, target := d.target, type := d.type }]) := by
  refine ⟨?_, ?_, ?_⟩
  · rw [renderGraph_graphLinks, List.length_map]
  · intro i
    rw [renderGraph_graphLinks, List.getElem?_map]
    rfl
  · intro d
    rw [renderGraph_graphLinks]
    rfl

/-- C6: for every dependency list, no two entries of the node list built by
`renderGraph` have the same id. -/
theorem node_ids_nodup (deps : List Dep) :
    ((renderGraph deps).graphNodes.map Node.id).Nodup := by
  rw [renderGraph_graphNodes]
  exact nodup_ids_firstById [] (candidates deps)

/-- C7: for every dependency list, the source and the target of every entry of
`graphLinks` are ids of entries of `graphNodes`. -/
theorem links_reference_nodes (deps : List Dep) (l : Link)
    (hl : l ∈ (renderGraph deps).graphLinks) :
    (∃ n ∈ (renderGraph deps).graphNodes, n.id = l.source) ∧
    (∃ n ∈ (renderGraph deps).graphNodes, n.id = l.target) := by
  rw [renderGraph_graphLinks, List.mem_map] at hl
  obtain ⟨d, hd, rfl⟩ := hl
  have hs : d.source ∈ (renderGraph deps).graphNodes.map Node.id :=
    (mem_ids_graphNodes deps d.source).2 (Or.inl (List.mem_map_of_mem Dep.source hd))
  have ht : d.target ∈ (renderGraph deps).graphNodes.map Node.id :=
    (mem_ids_graphNodes deps d.target).2 (Or.inr (List.mem_map_of_mem Dep.target hd))
  rw [List.mem_map] at hs ht
  exact ⟨hs, ht⟩

/-- Witness of C7 on a self-referential record: its link is built and both of
its ends are the id of a node. -/
theorem links_reference_nodes_witness :
    ({ source := Val.str "A", target := Val.str "A", type := Val.str "jdk" } : Link)
        ∈ (renderGraph selfLoopDeps).graphLinks ∧
    ((∃ n ∈ (renderGraph selfLoopDeps).graphNodes, n.id = Val.str "A") ∧
     (∃ n ∈ (renderGraph selfLoopDeps).graphNodes, n.id = Val.str "A")) :=
  ⟨by decide,
   links_reference_nodes selfLoopDeps
     { source := Val.str "A", target := Val.str "A", type := Val.str "jdk" } (by decide)⟩

/-- C3, as stated, fails: in `mixedTargetDeps` the identifier `B` is the
target of a record of type `jdk` and is never a source, yet its node is built
with group 3 and no node of id `B` has group 2. -/
theorem platform_target_group_counterexample :
    (∃ d ∈ mixedTargetDeps, d.target = Val.str "B" ∧ d.type = Val.str "jdk") ∧
    (∀ d ∈ mixedTargetDeps, d.source ≠ Val.str "B") ∧
    ({ id := Val.str "B", type := Val.str "external", group := 3 } : Node)
      ∈ (renderGraph mixedTargetDeps).graphNodes ∧
    ¬ ∃ n ∈ (renderGraph mixedTargetDeps).graphNodes, n.id = Val.str "B" ∧ n.group = 2 := by
  decide

/-- C3, amended: for every dependency list, an identifier that is never the
source of a record and whose first record having it as target is of type
`jdk` has its node built with type `jdk` and group 2, and every node of that
id has group 2. -/
theorem platform_target_group_of_first (deps : List Dep) (k : Val) (d : Dep)
    (hsrc : ∀ e ∈ deps, e.source ≠ k)
    (hfirst : deps.find? (fun e => e.target == k) = some d)
    (hjdk : d.type = Val.str "jdk") :
    ({ id := k, type := Val.str "jdk", group := 2 } : Node) ∈ (renderGraph deps).graphNodes ∧
    ∀ n ∈ (renderGraph deps).graphNodes, n.id = k → n.group = 2 := by
  have hk : d.target = k := by
    simpa using List.find?_some hfirst
  have hfind : (candidates deps).find? (fun m => m.id == k)
      = some { id := k, type := Val.str "jdk", group := 2 } := by
    rw [find_candidates_of_no_source deps k hsrc, hfirst]
    simp [tgtNode, hk, hjdk]
  constructor
  · rw [mem_graphNodes_iff]
    exact hfind
  · intro n hn hid
    rw [mem_graphNodes_iff, hid, hfind] at hn
    rw [← Option.some.inj hn]

/-- Witness of the amended C3 on the example input: `B` is never a source and
its first record as a target is of type `jdk`. -/
theorem platform_target_group_of_first_witness :
    (∀ e ∈ exampleDeps, e.source ≠ Val.str "B") ∧
    exampleDeps.find? (fun e => e.target == Val.str "B")
      = some { source := Val.str "A", target := Val.str "B", type := Val.str "jdk" } ∧
    (({ id := Val.str "B", type := Val.str "jdk", group := 2 } : Node)
        ∈ (renderGraph exampleDeps).graphNodes ∧
      ∀ n ∈ (renderGraph exampleDeps).graphNodes, n.id = Val.str "B" → n.group = 2) :=
  ⟨by decide, by decide,
   platform_target_group_of_first exampleDeps (Val.str "B")
     { source := Val.str "A", target := Val.str "B", type := Val.str "jdk" }
     (by decide) (by decide) rfl⟩

/-- C4: for every dependency list, an identifier that is the source of some
record and the target of none has its node built with type `source` and group
1; and for the example input of the specification the nodes are exactly
`A` (group 1), `B` (group 2), `C` (group 3). -/
theorem origin_group_and_example :
    (∀ (deps : List Dep) (k : Val), (∃ d ∈ deps, d.source = k) →
      (∀ d ∈ deps, d.target ≠ k) →
      ({ id := k, type := Val.str "source", group := 1 } : Node)
          ∈ (renderGraph deps).graphNodes ∧
        ∀ n ∈ (renderGraph deps).graphNodes, n.id = k →
          n.type = Val.str "source" ∧ n.group = 1) ∧
    (renderGraph exampleDeps).graphNodes
      = [ { id := Val.str "A", type := Val.str "source", group := 1 },
          { id := Val.str "B", type := Val.str "jdk", group := 2 },
          { id := Val.str "C", type := Val.str "external", group := 3 } ] := by
  refine ⟨?_, by decide⟩
  intro deps k hs ht
  have hfind : (candidates deps).find? (fun m => m.id == k)
      = some { id := k, type := Val.str "source", group := 1 } := by
    rw [find_candidates_of_no_target deps k ht]
    obtain ⟨d, hd, hdk⟩ := hs
    have hsome : (deps.find? (fun e => e.source == k)).isSome = true := by
      rw [List.find?_isSome]
      exact ⟨d, hd, by simpa using hdk⟩
    obtain ⟨e, he⟩ := Option.isSome_iff_exists.1 hsome
    have hek : e.source = k := by simpa using List.find?_some he
    rw [he]
    simp [srcNode, hek]
  constructor
  · rw [mem_graphNodes_iff]
    exact hfind
  · intro n hn hid
    rw [mem_graphNodes_iff, hid, hfind] at hn
    rw [← Option.some.inj hn]
    exact ⟨rfl, rfl⟩

/-- Witness of C4 on the example input: `A` is a source and never a target,
and its node has type `source` and group 1. -/
theorem origin_group_and_example_witness :
    (∃ d ∈ exampleDeps, d.source = Val.str "A") ∧
    (∀ d ∈ exampleDeps, d.target ≠ Val.str "A") ∧
    (({ id := Val.str "A", type := Val.str "source", group := 1 } : Node)
        ∈ (renderGraph exampleDeps).graphNodes ∧
      ∀ n ∈ (renderGraph exampleDeps).graphNodes, n.id = Val.str "A" →
        n.type = Val.str "source" ∧ n.group = 1) :=
  ⟨by decide, by decide,
   origin_group_and_example.1 exampleDeps (Val.str "A") (by decide) (by decide)⟩

/-- On a list whose records all have a string as source and as target, no
statement of `renderGraph` raises and the graph of the construction is drawn. -/
theorem renderGraphOutcome_ok (deps : List Dep)
    (h : ∀ d ∈ deps, d.source.isString = true ∧ d.target.isString = true) :
    renderGraphOutcome deps = Except.ok (renderGraph deps) := by
  have hstr : ∀ k, k ∈ (renderGraph deps).graphNodes.map Node.id → k.isString = true := by
    intro k hk
    rcases (mem_ids_graphNodes deps k).1 hk with hk | hk
    · obtain ⟨d, hd, rfl⟩ := List.mem_map.1 hk
      exact (h d hd).1
    · obtain ⟨d, hd, rfl⟩ := List.mem_map.1 hk
      exact (h d hd).2
  have hend : ∀ k, k ∈ (renderGraph deps).graphNodes.map Node.id →
      linkEndThrows (renderGraph deps).graphNodes k = none ∧ k ≠ Val.null := by
    intro k hk
    have hs := hstr k hk
    have hany : (renderGraph deps).graphNodes.any (fun n => n.id == k) = true := by
      obtain ⟨n, hn, rfl⟩ := List.mem_map.1 hk
      exact List.any_eq_true.2 ⟨n, hn, by simp⟩
    cases k with
    | undefined => simp [Val.isString] at hs
    | null => simp [Val.isString] at hs
    | str t => exact ⟨by simp [linkEndThrows, hany], by simp⟩
  have hlinks : (renderGraph deps).graphLinks.findSome?
      (linkInitThrows (renderGraph deps).graphNodes) = none := by
    rw [List.findSome?_eq_none_iff]
    intro l hl
    rw [renderGraph_graphLinks] at hl
    obtain ⟨d, hd, rfl⟩ := List.mem_map.1 hl
    have h1 := hend d.source
      ((mem_ids_graphNodes deps d.source).2 (Or.inl (List.mem_map_of_mem Dep.source hd)))
    have h2 := hend d.target
      ((mem_ids_graphNodes deps d.target).2 (Or.inr (List.mem_map_of_mem Dep.target hd)))
    simp [linkInitThrows, linkOf, h1.1, h2.1, h1.2, h2.2]
  have hnodes : (renderGraph deps).graphNodes.findSome? labelThrows = none := by
    rw [List.findSome?_eq_none_iff]
    intro n hn
    simp [labelThrows, hstr n.id (List.mem_map_of_mem Node.id hn)]
  simp only [renderGraphOutcome, hlinks, hnodes]

/-- On a list with a record whose source or target is not a string, some
statement of `renderGraph` raises: the call does not complete. -/
theorem renderGraphOutcome_error (deps : List Dep) (d : Dep) (hd : d ∈ deps)
    (hm : d.source.isString = false ∨ d.target.isString = false) :
    ∃ e, renderGraphOutcome deps = Except.error e := by
  have hk : ∃ k, k ∈ (renderGraph deps).graphNodes.map Node.id ∧ k.isString = false := by
    rcases hm with hm | hm
    · exact ⟨d.source,
        (mem_ids_graphNodes deps _).2 (Or.inl (List.mem_map_of_mem Dep.source hd)), hm⟩
    · exact ⟨d.target,
        (mem_ids_graphNodes deps _).2 (Or.inr (List.mem_map_of_mem Dep.target hd)), hm⟩
  obtain ⟨k, hk, hks⟩ := hk
  obtain ⟨n, hn, rfl⟩ := List.mem_map.1 hk
  have hsome : ((renderGraph deps).graphNodes.findSome? labelThrows).isSome = true := by
    rw [List.findSome?_isSome_iff]
    exact ⟨n, hn, by simp [labelThrows, hks]⟩
  obtain ⟨e, he⟩ := Option.isSome_iff_exists.1 hsome
  unfold renderGraphOutcome
  simp only []
  cases hl : (renderGraph deps).graphLinks.findSome?
      (linkInitThrows (renderGraph deps).graphNodes) with
  | some e2 => exact ⟨e2, rfl⟩
  | none => exact ⟨e, by simp only [he]⟩

/-- C5, on the code: the claim does not hold of `renderGraph`.  In
`missingSourceDeps` the second record has no source.  The construction does
not skip it: its link and a node of id `undefined` are built, and the graph
differs from the one of the list without that record.  The call then raises at
the label of that node (line 419) instead of continuing, while the list
without the record is drawn in full.  A record with a `null` target raises in
the link force (line 386). -/
theorem malformed_record_raises :
    renderGraphOutcome missingSourceDeps = Except.error Thrown.typeErrorLabel ∧
    ({ source := Val.undefined, target := Val.str "C", type := Val.str "external" } : Link)
      ∈ (renderGraph missingSourceDeps).graphLinks ∧
    ({ id := Val.undefined, type := Val.str "source", group := 1 } : Node)
      ∈ (renderGraph missingSourceDeps).graphNodes ∧
    missingSourceDeps.filter (fun d => !d.malformed)
      = [{ source := Val.str "A", target := Val.str "B", type := Val.str "jdk" }] ∧
    (renderGraph missingSourceDeps).graphLinks
      ≠ (renderGraph (missingSourceDeps.filter (fun d => !d.malformed))).graphLinks ∧
    (renderGraph missingSourceDeps).graphNodes
      ≠ (renderGraph (missingSourceDeps.filter (fun d => !d.malformed))).graphNodes ∧
    renderGraphOutcome (missingSourceDeps.filter (fun d => !d.malformed))
      = Except.ok (renderGraph (missingSourceDeps.filter (fun d => !d.malformed))) ∧
    renderGraphOutcome nullTargetDeps = Except.error Thrown.typeErrorLinkEnd :=
  ⟨rfl, by decide, by decide, by decide, by decide, by decide, rfl, rfl⟩

/-! ## Properties of the drag handlers -/

/-- C8: for every node state and every pointer coordinate, the handler sequence
`dragstarted`, `dragged`, `dragended` leaves both pinned coordinates `fx` and
`fy` null, whatever they were before; they are set after `dragstarted` and
after `dragged`, and `dragended` alone clears them in any state. -/
theorem drag_leaves_unpinned {α : Type} (e1 e2 e3 : DragEvent α) (sim : Simulation)
    (d : SimNode α) :
    ((dragGesture e1 e2 e3 sim d).2.fx = none ∧ (dragGesture e1 e2 e3 sim d).2.fy = none) ∧
    ((dragstarted e1 sim d).2.fx = some d.x ∧ (dragstarted e1 sim d).2.fy = some d.y) ∧
    ((dragged e2 sim d).2.fx = some e2.x ∧ (dragged e2 sim d).2.fy = some e2.y) ∧
    ((dragended e3 sim d).2.fx = none ∧ (dragended e3 sim d).2.fy = none) :=
  ⟨⟨rfl, rfl⟩, ⟨rfl, rfl⟩, ⟨rfl, rfl⟩, ⟨rfl, rfl⟩⟩

/-- C9, as stated, fails: a node resting at `(0, 0)` that is dragged to
`(5, 7)` and released, with no simulation tick in between, still has position
`(0, 0)`, not `(5, 7)`. -/
theorem drag_position_counterexample :
    ((dragGesture pointerEvent pointerEvent pointerEvent idleSimulation restingNode).2.x,
     (dragGesture pointerEvent pointerEvent pointerEvent idleSimulation restingNode).2.y)
      = (0, 0) ∧
    ((dragGesture pointerEvent pointerEvent pointerEvent idleSimulation restingNode).2.x,
     (dragGesture pointerEvent pointerEvent pointerEvent idleSimulation restingNode).2.y)
      ≠ (pointerEvent.x, pointerEvent.y) := by
  decide

/-- C9, amended: the handlers never write the position.  For every node state
and every pointer coordinate, after `dragstarted`, `dragged`, `dragended` the
node has the `x` and `y` it had before the gesture; the pointer coordinate of
the event is held in the pinned coordinates `fx`, `fy` after `dragged`. -/
theorem drag_keeps_position {α : Type} (e1 e2 e3 : DragEvent α) (sim : Simulation)
    (d : SimNode α) :
    ((dragGesture e1 e2 e3 sim d).2.x = d.x ∧ (dragGesture e1 e2 e3 sim d).2.y = d.y) ∧
    ((dragged e2 (dragstarted e1 sim d).1 (dragstarted e1 sim d).2).2.fx = some e2.x ∧
     (dragged e2 (dragstarted e1 sim d).1 (dragstarted e1 sim d).2).2.fy = some e2.y) ∧
    ((dragged e2 (dragstarted e1 sim d).1 (dragstarted e1 sim d).2).2.x = d.x ∧
     (dragged e2 (dragstarted e1 sim d).1 (dragstarted e1 sim d).2).2.y = d.y) :=
  ⟨⟨rfl, rfl⟩, ⟨rfl, rfl⟩, ⟨rfl, rfl⟩⟩

/-! ## Properties of the zoom controls -/

theorem run_svg_isSome {α : Type} (p : Page α) (c : ZoomCall) (h : p.svg.isSome = true) :
    (c.run p).svg.isSome = true := by
  obtain ⟨s, hs⟩ := Option.isSome_iff_exists.1 h
  cases c <;> simp [ZoomCall.run, zoomIn, zoomOut, resetZoom, hs]

theorem run_nodes {α : Type} (p : Page α) (c : ZoomCall) : (c.run p).nodes = p.nodes := by
  cases c <;> simp only [ZoomCall.run, zoomIn, zoomOut, resetZoom] <;> cases p.svg <;> rfl

theorem runZoomCalls_spec {α : Type} (calls : List ZoomCall) (p : Page α)
    (h : p.svg.isSome = true) :
    (runZoomCalls p calls).svg.isSome = true ∧ (runZoomCalls p calls).nodes = p.nodes := by
  induction calls generalizing p with
  | nil => exact ⟨h, rfl⟩
  | cons c cs ih =>
    obtain ⟨h1, h2⟩ := ih (c.run p) (run_svg_isSome p c h)
    exact ⟨h1, h2.trans (run_nodes p c)⟩

theorem resetZoom_scale {α : Type} (p : Page α) (h : p.svg.isSome = true) :
    (resetZoom p).scale = some 1 := by
  obtain ⟨s, hs⟩ := Option.isSome_iff_exists.1 h
  simp [resetZoom, hs, Page.scale, scaleFactor]

/-- C10: once `svg` is set, `zoomIn` then `zoomOut` then `resetZoom` leaves the
scale factor at exactly 1; so does any sequence of calls of the controls
followed by `resetZoom`; and none of the three controls, nor any sequence of
them, changes the node objects and so any node coordinate. -/
theorem zoom_reset_scale_one {α : Type} (p : Page α) (calls : List ZoomCall)
    (hsvg : p.svg.isSome = true) :
    (resetZoom (zoomOut (zoomIn p))).scale = some 1 ∧
    (resetZoom (runZoomCalls p calls)).scale = some 1 ∧
    (zoomIn p).nodes = p.nodes ∧ (zoomOut p).nodes = p.nodes ∧
    (resetZoom p).nodes = p.nodes ∧
    (resetZoom (runZoomCalls p calls)).nodes = p.nodes := by
  have hrun := runZoomCalls_spec calls p hsvg
  refine ⟨?_, resetZoom_scale _ hrun.1, run_nodes p ZoomCall.zoomIn,
    run_nodes p ZoomCall.zoomOut, run_nodes p ZoomCall.resetZoom, ?_⟩
  · have h := runZoomCalls_spec [ZoomCall.zoomIn, ZoomCall.zoomOut] p hsvg
    exact resetZoom_scale _ h.1
  · exact (run_nodes _ ZoomCall.resetZoom).trans hrun.2

/-- Witness of C10 on a rendered page, with the calls `zoomIn`, `zoomIn`,
`zoomOut` before the reset. -/
theorem zoom_reset_scale_one_witness :
    renderedPage.svg.isSome = true ∧
    ((resetZoom (zoomOut (zoomIn renderedPage))).scale = some 1 ∧
     (resetZoom (runZoomCalls renderedPage
        [ZoomCall.zoomIn, ZoomCall.zoomIn, ZoomCall.zoomOut])).scale = some 1 ∧
     (zoomIn renderedPage).nodes = renderedPage.nodes ∧
     (zoomOut renderedPage).nodes = renderedPage.nodes ∧
     (resetZoom renderedPage).nodes = renderedPage.nodes ∧
     (resetZoom (runZoomCalls renderedPage
        [ZoomCall.zoomIn, ZoomCall.zoomIn, ZoomCall.zoomOut])).nodes = renderedPage.nodes) :=
  ⟨rfl, zoom_reset_scale_one renderedPage
    [ZoomCall.zoomIn, ZoomCall.zoomIn, ZoomCall.zoomOut] rfl⟩

/-! ## The scan and the first occurrences -/

theorem Occurrence.node_id (o : Occurrence) : o.node.id = o.id := by
  cases o <;> rfl

theorem occurrences_node (deps : List Dep) :
    (occurrences deps).map Occurrence.node = candidates deps := by
  induction deps with
  | nil => rfl
  | cons d ds ih =>
    simp only [occurrences, candidates, List.map_cons, ih]
    rfl

theorem occurrences_ids (deps : List Dep) :
    (occurrences deps).map Occurrence.id = (candidates deps).map Node.id := by
  rw [← occurrences_node, List.map_map]
  apply List.map_congr_left
  intro o _
  exact (Occurrence.node_id o).symm

theorem find_candidates_eq (deps : List Dep) (k : Val) :
    (candidates deps).find? (fun m => m.id == k)
      = (firstOccurrence deps k).map Occurrence.node := by
  rw [← occurrences_node, List.find?_map, firstOccurrence]
  have hf : ((fun m : Node => m.id == k) ∘ Occurrence.node) = (fun o => o.id == k) := by
    funext o
    simp [Function.comp, Occurrence.node_id]
  rw [hf]

theorem candidates_append (l1 l2 : List Dep) :
    candidates (l1 ++ l2) = candidates l1 ++ candidates l2 := by
  induction l1 with
  | nil => rfl
  | cons d ds ih => simp [candidates, ih]

theorem firstById_append (seen : List Val) (l1 l2 : List Node) :
    firstById seen (l1 ++ l2)
      = firstById seen l1
          ++ firstById (seen ++ (firstById seen l1).map Node.id) l2 := by
  induction l1 generalizing seen with
  | nil => simp [firstById]
  | cons n ns ih =>
    by_cases hs : n.id ∈ seen
    · rw [List.cons_append, firstById, if_pos hs, firstById, if_pos hs]
      exact ih seen
    · rw [List.cons_append, firstById, if_neg hs, firstById, if_neg hs,
        ih (seen ++ [n.id])]
      simp

theorem pairwise_firstById (seen : List Val) (l : List Node) :
    ((firstById seen l).map (fun m => (l.map Node.id).indexOf m.id)).Pairwise (· < ·) := by
  induction l generalizing seen with
  | nil => simp [firstById]
  | cons n ns ih =>
    have hshift : ∀ seen2 : List Val, n.id ∈ seen2 →
        (firstById seen2 ns).map (fun m => ((n :: ns).map Node.id).indexOf m.id)
          = ((firstById seen2 ns).map (fun m => (ns.map Node.id).indexOf m.id)).map
              Nat.succ := by
      intro seen2 hn
      rw [List.map_map]
      apply List.map_congr_left
      intro m hm
      have hmid : m.id ∉ seen2 :=
        ((mem_ids_firstById seen2 ns m.id).1 (List.mem_map_of_mem Node.id hm)).1
      have hne : n.id ≠ m.id := fun e => hmid (e ▸ hn)
      simp only [List.map_cons, Function.comp]
      exact List.indexOf_cons_ne _ hne
    have hsucc : ∀ seen2 : List Val,
        (((firstById seen2 ns).map (fun m => (ns.map Node.id).indexOf m.id)).map
          Nat.succ).Pairwise (· < ·) := by
      intro seen2
      exact List.Pairwise.map Nat.succ (fun a b hab => Nat.succ_lt_succ hab) (ih seen2)
    by_cases hs : n.id ∈ seen
    · simp only [firstById, hs, if_true]
      rw [hshift seen hs]
      exact hsucc seen
    · simp only [firstById, hs, if_false]
      rw [List.map_cons, List.pairwise_cons, hshift (seen ++ [n.id]) (by simp)]
      refine ⟨?_, hsucc _⟩
      intro a ha
      have h0 : ((n :: ns).map Node.id).indexOf n.id = 0 := by
        simp only [List.map_cons]
        exact List.indexOf_cons_self _ _
      rw [h0]
      obtain ⟨b, _, rfl⟩ := List.mem_map.1 ha
      exact Nat.succ_pos b

/-- C11: for every dependency list, the node of an identifier is decided by
the identifier's first occurrence in the scan (records in order, source before
target): looking an identifier up in the node list gives the node of its first
occurrence, with type `source` and group 1 for a source, and type `t` and
group 2 (`t` is `jdk`) or 3 (any other `t`) for the target of a record of type
`t`; every entry of the node list is such a node; records appended later leave
the nodes already built as they are, only adding nodes after them; and the
node list is in first-occurrence order. -/
theorem node_decided_by_first_occurrence (deps more : List Dep) (k : Val) (n : Node) :
    (renderGraph deps).graphNodes.find? (fun m => m.id == k)
      = (firstOccurrence deps k).map Occurrence.node ∧
    (n ∈ (renderGraph deps).graphNodes ↔
      (firstOccurrence deps n.id).map Occurrence.node = some n) ∧
    (∃ rest : List Node,
      (renderGraph (deps ++ more)).graphNodes = (renderGraph deps).graphNodes ++ rest) ∧
    ((renderGraph deps).graphNodes.map (fun m => firstPosition deps m.id)).Pairwise
      (fun i j => i < j) := by
  refine ⟨?_, ?_, ?_, ?_⟩
  · rw [renderGraph_graphNodes, find_firstById [] _ k (by simp), find_candidates_eq]
  · rw [mem_graphNodes_iff, find_candidates_eq]
  · rw [renderGraph_graphNodes, renderGraph_graphNodes, candidates_append, firstById_append]
    exact ⟨_, rfl⟩
  · rw [renderGraph_graphNodes]
    simp only [firstPosition, occurrences_ids]
    exact pairwise_firstById [] (candidates deps)

end CodeRush
